import Mathlib

/-!
Verification of the ablastr charge-deposition entry point
(`ablastr::particles::deposit_charge`, file `ablastr/particles/DepositCharge.H`)
against its natural-language specification.

The embedding models the WARPX_DIM_3D build (three active dimensions), with
`amrex::IntVect` as a triple of integers, `amrex::Box` as a cell-centered
index box given by its two corners, and the charge-density `MultiFab` as a
function from component and cell index to a rational value (exact arithmetic
standing in for floating-point accumulation).  The deposition kernel
`doChargeDepositionShapeN` is external to the translated file and is modelled
as an additive-contribution parameter: each dispatched specialization adds its
contribution to the fab it is handed (local buffer on the CPU path, aliased
shared field on the GPU path), exactly as in the source.  Fatal
`ABLASTR_ALWAYS_ASSERT_WITH_MESSAGE` checks become an error field carrying the
source's message string; the result also records the intermediate values the
source computes (resolved guards, particle count, deposition level, refinement
ratio, bounds-check range, grown tile box, lower bound, kernel dispatch), in
the order the source computes them, so that theorems can speak about them.
-/

/-- `amrex::IntVect` in a 3-dimensional build. -/
structure IntVect where
  x : Int
  y : Int
  z : Int
deriving DecidableEq, Repr

namespace IntVect

/-- Componentwise addition. -/
def add (a b : IntVect) : IntVect := ⟨a.x + b.x, a.y + b.y, a.z + b.z⟩

/-- Componentwise subtraction (`operator-` on `amrex::IntVect`). -/
def sub (a b : IntVect) : IntVect := ⟨a.x - b.x, a.y - b.y, a.z - b.z⟩

/-- `amrex::IntVect::allLE`: every component of `a` is `≤` the matching
component of `b`. -/
def allLE (a b : IntVect) : Prop := a.x ≤ b.x ∧ a.y ≤ b.y ∧ a.z ≤ b.z

instance (a b : IntVect) : Decidable (allLE a b) :=
  inferInstanceAs (Decidable (_ ∧ _ ∧ _))

/-- `amrex::IntVect(1,1,1)` (`AMREX_D_DECL(1, 1, 1)`). -/
def one : IntVect := ⟨1, 1, 1⟩

end IntVect

/-- A cell-centered `amrex::Box`: the integer index range `[lo, hi]`
componentwise. -/
structure Box where
  lo : IntVect
  hi : IntVect
deriving DecidableEq, Repr

namespace Box

/-- `amrex::Box::grow`: widen both ends by `g` (a negative component
shrinks). -/
def grow (b : Box) (g : IntVect) : Box := ⟨b.lo.sub g, b.hi.add g⟩

/-- `amrex::coarsen(Box, IntVect)` on a cell-centered box: floor-divide both
corners by the ratio componentwise. -/
def coarsen (b : Box) (r : IntVect) : Box :=
  ⟨⟨b.lo.x.fdiv r.x, b.lo.y.fdiv r.y, b.lo.z.fdiv r.z⟩,
   ⟨b.hi.x.fdiv r.x, b.hi.y.fdiv r.y, b.hi.z.fdiv r.z⟩⟩

/-- `amrex::convert` applied to a cell-centered box: switching a dimension to
a nodal index type extends the big end by one in that dimension.  `t` holds
the 0/1 nodal flags of the target index type (`rho->ixType().toIntVect()`). -/
def convertFromCell (b : Box) (t : IntVect) : Box := ⟨b.lo, b.hi.add t⟩

/-- Membership of a cell index in a box. -/
def containsCell (b : Box) (p : IntVect) : Prop :=
  b.lo.x ≤ p.x ∧ p.x ≤ b.hi.x ∧ b.lo.y ≤ p.y ∧ p.y ≤ b.hi.y ∧
  b.lo.z ≤ p.z ∧ p.z ≤ b.hi.z

instance (b : Box) (p : IntVect) : Decidable (containsCell b p) :=
  inferInstanceAs (Decidable (_ ∧ _ ∧ _ ∧ _ ∧ _ ∧ _))

end Box

/-- A triple of real-valued quantities (`std::array<amrex::Real, 3>`),
modelled with exact rationals. -/
structure RealVect where
  x : ℚ
  y : ℚ
  z : ℚ
deriving DecidableEq, Repr

/-- The charge-density field: component index and cell index to value.
Models the `rho` MultiFab's data on the patch, guard cells included. -/
def RhoField : Type := Nat → IntVect → ℚ

/-- `amrex::numParticlesOutOfRange(pti, range)`: the number of particles in
the iterator whose cell index lies outside the iterator's tile box grown by
`range`.  Particles are modelled by their integer cell index at the owning
level. -/
def numParticlesOutOfRange (particles : List IntVect) (tileBox : Box)
    (range : IntVect) : Nat :=
  (particles.filter (fun p => decide (¬ Box.containsCell (tileBox.grow range) p))).length

/-- The per-dimension stencil extent `deposit_charge` derives from the shape
order: `nox/2 + 1` in each dimension with C++ integer (truncating) division
(lines 116-119 of the source, `WARPX_DIM_3D` branch, where
`nox = noy = noz = particle_shape`). -/
def shape_extent (nox : Int) : IntVect :=
  ⟨nox.tdiv 2 + 1, nox.tdiv 2 + 1, nox.tdiv 2 + 1⟩

/-- Arguments of one `deposit_charge` call.  Fields follow the C++ parameter
list; particle data visible to this function is the iterator's particle count,
the particles' cell indices (used by the out-of-range pre-check), the owning
level, and the tile box. -/
structure DepositArgs where
  /-- `pti.numParticles()`. -/
  numPartsInTile : Int
  /-- Cell indices of the iterator's particles, for `numParticlesOutOfRange`. -/
  particles : List IntVect
  /-- `pti.GetLevel()`. -/
  lev : Int
  /-- `pti.tilebox()` (cell-centered). -/
  tileBox : Box
  /-- `charge` of the species. -/
  charge : ℚ
  /-- `rho->nGrowVect()`: guard cells allocated on the rho field. -/
  rho_nGrow : IntVect
  /-- `rho->ixType().toIntVect()`: 0/1 nodal flag per dimension. -/
  rho_ixType : IntVect
  /-- `particle_shape`. -/
  particle_shape : Int
  /-- `dx`: cell spacing. -/
  dx : RealVect
  /-- `xyzmin`: lower physical corner of the tile. -/
  xyzmin : RealVect
  /-- `n_rz_azimuthal_modes`. -/
  n_rz_azimuthal_modes : Int
  /-- `num_rho_deposition_guards` (optional guard override). -/
  num_rho_deposition_guards : Option IntVect
  /-- `depos_lev` (optional target level). -/
  depos_lev : Option Int
  /-- `rel_ref_ratio` (optional refinement ratio). -/
  rel_ref_ratio : Option IntVect
  /-- `offset`: first particle index to deposit. -/
  offset : Int
  /-- `np_to_deposit` (optional particle count). -/
  np_to_deposit : Option Int
  /-- `icomp`: starting component block. -/
  icomp : Nat
  /-- `nc`: number of components to deposit. -/
  nc : Nat

/-- The argument record handed to one `doChargeDepositionShapeN<N>`
instantiation. -/
structure KernelCall where
  /-- The compile-time shape order `N` of the dispatched specialization. -/
  order : Int
  /-- Particle start offset (baked into `GetPosition` and `wp.dataPtr()+offset`). -/
  offset : Int
  /-- `np_to_deposit.value()`. -/
  np : Int
  /-- `lo`: lower bound of the grown deposition tile box. -/
  lo : IntVect
  /-- Species charge. -/
  charge : ℚ
  /-- `n_rz_azimuthal_modes`. -/
  nModes : Int
  /-- Cell spacing. -/
  dx : RealVect
  /-- Lower physical corner. -/
  xyzmin : RealVect
deriving DecidableEq, Repr

/-- The external deposition kernel, modelled by the additive contribution it
scatters into the fab it is handed (per component of that fab, per cell). -/
def Kernel : Type := KernelCall → Nat → IntVect → ℚ

/-- Result of a `deposit_charge` call: the error message of the failed fatal
assertion if one fired (`none` on success), the intermediate values in source
order (`none` when control aborted or returned before the value was
computed), the dispatched kernel call if any, and the final rho field. -/
structure DepResult where
  /-- Message of the failed `ABLASTR_ALWAYS_ASSERT_WITH_MESSAGE`, if any. -/
  error : Option String
  /-- Resolved `ng_rho` (guard override or allocated guards). -/
  ng : Option IntVect
  /-- Resolved `np_to_deposit`. -/
  np : Option Int
  /-- Resolved `depos_lev`. -/
  deposLev : Option Int
  /-- Resolved `rel_ref_ratio`. -/
  ratio : Option IntVect
  /-- `range` handed to `numParticlesOutOfRange`. -/
  range : Option IntVect
  /-- The grown deposition tile box (`tilebox` after selection and `grow`). -/
  tilebox : Option Box
  /-- `lo = lbound(tilebox)`. -/
  lo : Option IntVect
  /-- The dispatched kernel specialization, if any. -/
  call : Option KernelCall
  /-- The rho field after the call. -/
  rho : RhoField

/-- Abort result: a fatal assertion fired with message `msg`; the shared rho
field is returned untouched. -/
def mkAbort (msg : String) (rho : RhoField) (ng : Option IntVect)
    (np : Option Int) (dlev : Option Int) : DepResult :=
  ⟨some msg, ng, np, dlev, none, none, none, none, none, rho⟩

/-- Kernel-call record for the `doChargeDepositionShapeN<order>` dispatch
(lines 178-194). -/
def mkCall (a : DepositArgs) (order : Int) (np : Int) (lo : IntVect) : KernelCall :=
  ⟨order, a.offset, np, lo, a.charge, a.n_rz_azimuthal_modes, a.dx, a.xyzmin⟩

/-- Lines 122-128: the guard width actually available to the bounds check
minus the stencil extent.  On the CPU build the available width is the tile
buffer's `ng_rho`; on the GPU build it is the shared field's full allocated
guard width `rho->nGrowVect()`. -/
def dcRange (gpu : Bool) (alloc ng_rho : IntVect) (nox : Int) : IntVect :=
  if gpu then alloc.sub (shape_extent nox) else ng_rho.sub (shape_extent nox)

/-- Lines 140-145: the deposition tile box, coarsened by the refinement ratio
exactly when `lev ≠ depos_lev`. -/
def dcTilebox (a : DepositArgs) (lev dlev : Int) (ratio : IntVect) : Box :=
  if lev = dlev then a.tileBox else a.tileBox.coarsen ratio

/-- Lines 178-194: the order-specialised kernel dispatch.  The if-else chain
has no final `else`: a shape order outside {1,2,3,4} dispatches nothing. -/
def dcDispatch (a : DepositArgs) (nox np : Int) (lo : IntVect) : Option KernelCall :=
  if nox = 1 then some (mkCall a 1 np lo)
  else if nox = 2 then some (mkCall a 2 np lo)
  else if nox = 3 then some (mkCall a 3 np lo)
  else if nox = 4 then some (mkCall a 4 np lo)
  else none

/-- The additive contribution the dispatched kernel (if any) scatters into the
fab it is handed; no dispatch contributes nothing. -/
def dcContrib (kernel : Kernel) : Option KernelCall → Nat → IntVect → ℚ
  | some c => kernel c
  | none => fun _ _ => 0

/-- Lines 154-169 and 197-202: how the contribution reaches the shared rho
field.  GPU: the kernel adds directly into the alias of components
`icomp*nc, ..., icomp*nc + nc - 1` of the shared field.  CPU: the kernel adds
into `local_rho` (resized over the grown staggered box `tb` and set to zero
beforehand), which `lockAdd` then adds into those same components of the
shared field over the region `tb`. -/
def dcScatter (gpu : Bool) (a : DepositArgs) (rho : RhoField) (tb : Box)
    (contrib : Nat → IntVect → ℚ) : RhoField :=
  if gpu then
    fun comp cell =>
      rho comp cell +
        (if a.icomp * a.nc ≤ comp ∧ comp < a.icomp * a.nc + a.nc then
          contrib (comp - a.icomp * a.nc) cell else 0)
  else
    fun comp cell =>
      rho comp cell +
        (if Box.containsCell tb cell ∧
            a.icomp * a.nc ≤ comp ∧ comp < a.icomp * a.nc + a.nc then
          (0 : ℚ) + contrib (comp - a.icomp * a.nc) cell else 0)

/-- Lines 140-203: the deposition proper, reached once every check has
passed: tile-box selection and growth, `lo = lbound(tilebox)`, the
order-specialised dispatch, and the accumulation into the shared field. -/
def dcDeposit (gpu : Bool) (kernel : Kernel) (a : DepositArgs) (rho : RhoField)
    (ng_rho : IntVect) (nox np dlev : Int) (ratio range : IntVect)
    (tbox : Box) : DepResult :=
  let tb := (tbox.convertFromCell a.rho_ixType).grow ng_rho
  let gtbox := tbox.grow ng_rho
  let lo := gtbox.lo
  let callOpt := dcDispatch a nox np lo
  ⟨none, some ng_rho, some np, some dlev, some ratio, some range,
   some gtbox, some lo, callOpt, dcScatter gpu a rho tb (dcContrib kernel callOpt)⟩

/-- Lines 100-203 of the source: everything after the four configuration
checks, with the resolved values in hand (`gpu` selects the `AMREX_USE_GPU`
build): the empty-batch early return (line 101), the whole-batch bounds check
against `dcRange` (lines 108-132), and the deposition proper (`dcDeposit`). -/
def dcMain (gpu : Bool) (kernel : Kernel) (a : DepositArgs) (rho : RhoField)
    (ng_rho : IntVect) (nox np lev dlev : Int) (ratio : IntVect) : DepResult :=
  if np = 0 then
    ⟨none, some ng_rho, some np, some dlev, some ratio, none, none, none, none, rho⟩
  else
    let range := dcRange gpu a.rho_nGrow ng_rho nox
    if numParticlesOutOfRange a.particles a.tileBox range = 0 then
      dcDeposit gpu kernel a rho ng_rho nox np dlev ratio range
        (dcTilebox a lev dlev ratio)
    else
      ⟨some "Particles shape does not fit within tile (CPU) or guard cells (GPU) used for charge deposition",
       some ng_rho, some np, some dlev, some ratio, some range, none, none, none, rho⟩

/-- Lines 69-98 of the source: guard resolution and the four fatal
configuration checks, then `dcMain` for the remainder.

* lines 70-75: `ng_rho` defaults to `rho->nGrowVect()` and must be `allLE` it;
* lines 77, 81-85: `nox = particle_shape`; `np_to_deposit` defaults to
  `pti.numParticles()` and `np_to_deposit + offset ≤ pti.numParticles()`;
* lines 87-93: `depos_lev` defaults to `lev` and must be `lev-1` or `lev`;
* lines 94-98: absent `rel_ref_ratio` is fatal when `lev ≠ depos_lev`,
  otherwise defaults to `(1,1,1)`. -/
def deposit_charge (gpu : Bool) (kernel : Kernel) (a : DepositArgs)
    (rho : RhoField) : DepResult :=
  let ng_rho := a.num_rho_deposition_guards.getD a.rho_nGrow
  if ng_rho.allLE a.rho_nGrow then
    let nox := a.particle_shape
    let np := a.np_to_deposit.getD a.numPartsInTile
    if np + a.offset ≤ a.numPartsInTile then
      let lev := a.lev
      let dlev := a.depos_lev.getD lev
      if dlev = lev - 1 ∨ dlev = lev then
        if a.rel_ref_ratio = none ∧ ¬ lev = dlev then
          mkAbort "rel_ref_ratio must be set if lev != depos_lev" rho
            (some ng_rho) (some np) (some dlev)
        else
          dcMain gpu kernel a rho ng_rho nox np lev dlev
            (a.rel_ref_ratio.getD IntVect.one)
      else
        mkAbort "Deposition buffers only work for lev or lev-1" rho
          (some ng_rho) (some np) (some dlev)
    else
      mkAbort "np_to_deposit + offset are out-of-bounds for particle iterator" rho
        (some ng_rho) (some np) none
  else
    mkAbort "num_rho_deposition_guards are larger than allocated!" rho
      (some ng_rho) none none

/-- The stencil footprint of a particle whose cell index is `p`, with
per-dimension extent `e`, stays inside the box `b`: both extreme corners
`p - e` and `p + e` lie within `b`. -/
def stencilFits (p e : IntVect) (b : Box) : Prop :=
  b.lo.allLE (p.sub e) ∧ (p.add e).allLE b.hi

instance (p e : IntVect) (b : Box) : Decidable (stencilFits p e b) :=
  inferInstanceAs (Decidable (_ ∧ _))

/-- Modelled from the spec: the shape-function evaluation used by
`doChargeDepositionShapeN` (the shape-factor code is not among the translated
sources).  Following §4.1 of the specification, order `n` produces the `n+1`
weights of the centered B-spline kernel of degree `n-1`, evaluated at the
fractional offset `r` of the particle from the reference grid node (`r ∈
[0,1]`, measured from the lower node, for odd orders; `r ∈ [-1/2, 1/2]`,
measured from the nearest node, for even orders).  Staggering only shifts
which offset the caller feeds in; it does not change the kernel. -/
def shapeWeights (n : ℕ) (r : ℚ) : List ℚ :=
  match n with
  | 1 => [1 - r, r]
  | 2 => [(1/2) * (1/2 - r)^2, 3/4 - r^2, (1/2) * (1/2 + r)^2]
  | 3 => [(1 - r)^3 / 6, (4 - 6*r^2 + 3*r^3) / 6,
          (1 + 3*r + 3*r^2 - 3*r^3) / 6, r^3 / 6]
  | 4 => [(1 - 2*r)^4 / 384,
          ((3/2 - r)^4 - 5*(1/2 - r)^4) / 24,
          115/192 - (5/8)*r^2 + (1/4)*r^4,
          ((3/2 + r)^4 - 5*(1/2 + r)^4) / 24,
          (1 + 2*r)^4 / 384]
  | _ => []

/-! Concrete fixtures used to instantiate the theorems below.  The kernel
adds 1 to every cell of the fab it is handed, so "field unchanged" facts are
not vacuous; the rho field starts at zero.  Argument records share a tile box
`[0,7]^3` on level 1 of a field with 2 allocated guard cells per side. -/

/-- A deposition kernel contributing 1 to every component and cell. -/
def kOne : Kernel := fun _ _ _ => 1

/-- The all-zero starting field. -/
def rho0 : RhoField := fun _ _ => 0

/-- A well-formed call: order 1, one particle in the tile interior, every
optional argument left defaulted. -/
def exArgsOK : DepositArgs :=
  ⟨3, [⟨0, 0, 0⟩], 1, ⟨⟨0, 0, 0⟩, ⟨7, 7, 7⟩⟩, 1, ⟨2, 2, 2⟩, ⟨1, 1, 1⟩, 1,
   ⟨1, 1, 1⟩, ⟨0, 0, 0⟩, 0, none, none, none, 0, none, 0, 1⟩

/-- Same call with a guard override larger than the allocated guards. -/
def exArgsBadGuard : DepositArgs :=
  ⟨3, [⟨0, 0, 0⟩], 1, ⟨⟨0, 0, 0⟩, ⟨7, 7, 7⟩⟩, 1, ⟨2, 2, 2⟩, ⟨1, 1, 1⟩, 1,
   ⟨1, 1, 1⟩, ⟨0, 0, 0⟩, 0, some ⟨3, 3, 3⟩, none, none, 0, none, 0, 1⟩

/-- Same call with a requested particle count exceeding the batch size. -/
def exArgsBadNp : DepositArgs :=
  ⟨3, [⟨0, 0, 0⟩], 1, ⟨⟨0, 0, 0⟩, ⟨7, 7, 7⟩⟩, 1, ⟨2, 2, 2⟩, ⟨1, 1, 1⟩, 1,
   ⟨1, 1, 1⟩, ⟨0, 0, 0⟩, 0, none, none, none, 0, some 5, 0, 1⟩

/-- Same call with a target level that is neither `lev` nor `lev - 1`. -/
def exArgsBadLev : DepositArgs :=
  ⟨3, [⟨0, 0, 0⟩], 1, ⟨⟨0, 0, 0⟩, ⟨7, 7, 7⟩⟩, 1, ⟨2, 2, 2⟩, ⟨1, 1, 1⟩, 1,
   ⟨1, 1, 1⟩, ⟨0, 0, 0⟩, 0, none, some 3, none, 0, none, 0, 1⟩

/-- Deposition from level 1 into the coarse buffer level 0 with ratio 2. -/
def exArgsCoarse : DepositArgs :=
  ⟨3, [⟨0, 0, 0⟩], 1, ⟨⟨0, 0, 0⟩, ⟨7, 7, 7⟩⟩, 1, ⟨2, 2, 2⟩, ⟨1, 1, 1⟩, 1,
   ⟨1, 1, 1⟩, ⟨0, 0, 0⟩, 0, none, some 0, some ⟨2, 2, 2⟩, 0, none, 0, 1⟩

/-- Same call with an explicit particle count of zero. -/
def exArgsEmpty : DepositArgs :=
  ⟨3, [⟨0, 0, 0⟩], 1, ⟨⟨0, 0, 0⟩, ⟨7, 7, 7⟩⟩, 1, ⟨2, 2, 2⟩, ⟨1, 1, 1⟩, 1,
   ⟨1, 1, 1⟩, ⟨0, 0, 0⟩, 0, none, none, none, 0, some 0, 0, 1⟩

/-- Same call with a particle far outside the guarded tile. -/
def exArgsOut : DepositArgs :=
  ⟨3, [⟨100, 100, 100⟩], 1, ⟨⟨0, 0, 0⟩, ⟨7, 7, 7⟩⟩, 1, ⟨2, 2, 2⟩, ⟨1, 1, 1⟩, 1,
   ⟨1, 1, 1⟩, ⟨0, 0, 0⟩, 0, none, none, none, 0, none, 0, 1⟩

/-- Same call with the unsupported shape order 5 (particle kept in the
shrunken range so every check passes). -/
def exArgsShape5 : DepositArgs :=
  ⟨3, [⟨3, 3, 3⟩], 1, ⟨⟨0, 0, 0⟩, ⟨7, 7, 7⟩⟩, 1, ⟨2, 2, 2⟩, ⟨1, 1, 1⟩, 5,
   ⟨1, 1, 1⟩, ⟨0, 0, 0⟩, 0, none, none, none, 0, none, 0, 1⟩

/-! Helper lemmas shared by the claim theorems. -/

/-- The bounds-check counter is nonzero exactly when some particle's cell
lies outside the tile box grown by the range. -/
theorem numParticlesOutOfRange_pos (ps : List IntVect) (tb : Box) (range : IntVect) :
    numParticlesOutOfRange ps tb range ≠ 0 ↔
      ∃ p ∈ ps, ¬ Box.containsCell (tb.grow range) p := by
  unfold numParticlesOutOfRange
  simp [List.length_eq_zero, List.filter_eq_nil_iff]

/-- A particle cell lies in the tile box grown by `g - e` exactly when its
stencil footprint of extent `e` stays inside the tile box grown by `g`. -/
theorem stencilFits_iff_containsCell (tb : Box) (g e p : IntVect) :
    stencilFits p e (tb.grow g) ↔ Box.containsCell (tb.grow (g.sub e)) p := by
  unfold stencilFits Box.containsCell Box.grow IntVect.allLE IntVect.sub IntVect.add
  dsimp
  omega

/-- `dcMain` returns the field untouched whenever it reports an error. -/
theorem dcMain_error_imp_rho_eq (gpu : Bool) (kernel : Kernel) (a : DepositArgs)
    (rho : RhoField) (ng : IntVect) (nox np lev dlev : Int) (ratio : IntVect)
    (h : (dcMain gpu kernel a rho ng nox np lev dlev ratio).error.isSome = true) :
    (dcMain gpu kernel a rho ng nox np lev dlev ratio).rho = rho := by
  simp only [dcMain, dcDeposit] at h ⊢
  split_ifs at h ⊢ <;> simp_all

/-- When the four configuration checks pass, `deposit_charge` reduces to
`dcMain` on the resolved values. -/
theorem deposit_charge_eq_dcMain (gpu : Bool) (kernel : Kernel)
    (a : DepositArgs) (rho : RhoField)
    (h1 : (a.num_rho_deposition_guards.getD a.rho_nGrow).allLE a.rho_nGrow)
    (h2 : a.np_to_deposit.getD a.numPartsInTile + a.offset ≤ a.numPartsInTile)
    (h3 : a.depos_lev.getD a.lev = a.lev - 1 ∨ a.depos_lev.getD a.lev = a.lev)
    (h4 : ¬ (a.rel_ref_ratio = none ∧ ¬ a.lev = a.depos_lev.getD a.lev)) :
    deposit_charge gpu kernel a rho =
      dcMain gpu kernel a rho (a.num_rho_deposition_guards.getD a.rho_nGrow)
        a.particle_shape (a.np_to_deposit.getD a.numPartsInTile) a.lev
        (a.depos_lev.getD a.lev) (a.rel_ref_ratio.getD IntVect.one) := by
  simp only [deposit_charge]
  rw [if_pos h1, if_pos h2, if_pos h3, if_neg h4]

/-! Claim theorems. -/

/-- C1, counterexample: the claim takes the per-dimension required guard
margin at order `n` to be `⌈n/2⌉ + 1` (so 2 cells at order 1), but the extent
`deposit_charge` computes at order 1 is `1/2 + 1 = 1` with C++ truncating
integer division, not `⌈1/2⌉ + 1 = 2`. -/
theorem shape_extent_order_one_ne_ceil :
    ¬ (shape_extent 1 = ⟨⌈(1 : ℚ) / 2⌉ + 1, ⌈(1 : ℚ) / 2⌉ + 1, ⌈(1 : ℚ) / 2⌉ + 1⟩) := by
  have hc : ⌈(1 : ℚ) / 2⌉ = 1 := by
    rw [Int.ceil_eq_iff] <;> norm_num
  rw [hc]
  decide

/-- C1, amended: for every shape order `n` in {1,2,3,4} the guard margin that
deposition requires per dimension is `n/2 + 1` cells with truncating integer
division (so order 1 requires 1 cell, orders 2 and 3 require 2 cells, and
order 4 requires 3 cells), and this extent is exactly what `deposit_charge`
subtracts from the available guard width (the resolved `ng_rho` on the CPU
path, the allocated guard width on the GPU path) to form the bounds-check
range. -/
theorem shape_extent_floor_and_range (gpu : Bool) (kernel : Kernel)
    (a : DepositArgs) (rho : RhoField) :
    (shape_extent 1 = ⟨1, 1, 1⟩ ∧ shape_extent 2 = ⟨2, 2, 2⟩ ∧
     shape_extent 3 = ⟨2, 2, 2⟩ ∧ shape_extent 4 = ⟨3, 3, 3⟩) ∧
    (∀ r, (deposit_charge gpu kernel a rho).range = some r →
      r = (if gpu then a.rho_nGrow
           else a.num_rho_deposition_guards.getD a.rho_nGrow).sub
            (shape_extent a.particle_shape)) := by
  refine ⟨by decide, fun r hr => ?_⟩
  simp only [deposit_charge] at hr
  split_ifs at hr
  all_goals
    first
      | (simp only [mkAbort, DepResult.range] at hr
         exact Option.noConfusion hr)
      | (simp only [dcMain, dcDeposit] at hr
         split_ifs at hr
         all_goals
           first
             | exact Option.noConfusion hr
             | (have hre := (Option.some.inj hr).symm
                subst hre
                cases gpu <;> simp [dcRange]))

/-- C1, witness: on the order-1 fixture the recorded range is the available
guard width minus the order-1 extent. -/
theorem shape_extent_floor_and_range_witness :
    (deposit_charge false kOne exArgsOK rho0).range = some ⟨1, 1, 1⟩ ∧
    IntVect.mk 1 1 1 =
      (if (false : Bool) then exArgsOK.rho_nGrow
       else exArgsOK.num_rho_deposition_guards.getD exArgsOK.rho_nGrow).sub
        (shape_extent exArgsOK.particle_shape) :=
  ⟨by decide,
   (shape_extent_floor_and_range false kOne exArgsOK rho0).2 ⟨1, 1, 1⟩ (by decide)⟩

/-- C2: once the configuration checks pass and the batch is nonempty, if any
particle's stencil footprint (cell index ± the shape extent) reaches outside
the tile box grown by the available guard width — the resolved tile-buffer
guard width `ng_rho` on the CPU path, the shared field's full allocated guard
width on the GPU path — then `deposit_charge` aborts with the descriptive
out-of-range diagnostic and the shared field is returned with no write having
occurred. -/
theorem deposit_charge_bounds_abort (gpu : Bool) (kernel : Kernel)
    (a : DepositArgs) (rho : RhoField)
    (h1 : (a.num_rho_deposition_guards.getD a.rho_nGrow).allLE a.rho_nGrow)
    (h2 : a.np_to_deposit.getD a.numPartsInTile + a.offset ≤ a.numPartsInTile)
    (h3 : a.depos_lev.getD a.lev = a.lev - 1 ∨ a.depos_lev.getD a.lev = a.lev)
    (h4 : ¬ (a.rel_ref_ratio = none ∧ ¬ a.lev = a.depos_lev.getD a.lev))
    (hnp : ¬ a.np_to_deposit.getD a.numPartsInTile = 0)
    (hout : ∃ p ∈ a.particles,
      ¬ stencilFits p (shape_extent a.particle_shape)
          (a.tileBox.grow (if gpu then a.rho_nGrow
            else a.num_rho_deposition_guards.getD a.rho_nGrow))) :
    (deposit_charge gpu kernel a rho).error =
      some "Particles shape does not fit within tile (CPU) or guard cells (GPU) used for charge deposition"
    ∧ (deposit_charge gpu kernel a rho).rho = rho := by
  rw [deposit_charge_eq_dcMain gpu kernel a rho h1 h2 h3 h4]
  simp only [dcMain]
  rw [if_neg hnp]
  have hne : ¬ numParticlesOutOfRange a.particles a.tileBox
      (dcRange gpu a.rho_nGrow (a.num_rho_deposition_guards.getD a.rho_nGrow)
        a.particle_shape) = 0 := by
    rw [← Ne, numParticlesOutOfRange_pos]
    obtain ⟨p, hp, hf⟩ := hout
    refine ⟨p, hp, fun hc => hf ?_⟩
    rw [stencilFits_iff_containsCell]
    cases gpu <;> simpa [dcRange] using hc
  rw [if_neg hne]
  exact ⟨rfl, rfl⟩

/-- C2, witness: the fixture with a particle at cell (100,100,100) trips the
bounds check on the CPU path and leaves the field untouched. -/
theorem deposit_charge_bounds_abort_witness :
    (∃ p ∈ exArgsOut.particles,
      ¬ stencilFits p (shape_extent exArgsOut.particle_shape)
          (exArgsOut.tileBox.grow (if (false : Bool) then exArgsOut.rho_nGrow
            else exArgsOut.num_rho_deposition_guards.getD exArgsOut.rho_nGrow))) ∧
    (deposit_charge false kOne exArgsOut rho0).error =
      some "Particles shape does not fit within tile (CPU) or guard cells (GPU) used for charge deposition" ∧
    (deposit_charge false kOne exArgsOut rho0).rho = rho0 :=
  ⟨by decide,
   (deposit_charge_bounds_abort false kOne exArgsOut rho0 (by decide) (by decide)
     (by decide) (by decide) (by decide) (by decide)).1,
   (deposit_charge_bounds_abort false kOne exArgsOut rho0 (by decide) (by decide)
     (by decide) (by decide) (by decide) (by decide)).2⟩

/-- C3: every `deposit_charge` call is atomic with respect to the target
field — whenever any fatal precondition check fires, the returned field is
exactly the input field, because every check executes before the first
mutation of the shared field. -/
theorem deposit_charge_aborts_before_write (gpu : Bool) (kernel : Kernel)
    (a : DepositArgs) (rho : RhoField)
    (h : (deposit_charge gpu kernel a rho).error.isSome = true) :
    (deposit_charge gpu kernel a rho).rho = rho := by
  simp only [deposit_charge] at h ⊢
  split_ifs at h ⊢
  · rfl
  · exact dcMain_error_imp_rho_eq _ _ _ _ _ _ _ _ _ _ h
  all_goals rfl

/-- C3, witness: the oversized guard override aborts and the field equals the
input field. -/
theorem deposit_charge_aborts_before_write_witness :
    (deposit_charge false kOne exArgsBadGuard rho0).error.isSome = true ∧
    (deposit_charge false kOne exArgsBadGuard rho0).rho = rho0 :=
  ⟨by decide, deposit_charge_aborts_before_write false kOne exArgsBadGuard rho0 (by decide)⟩

/-- No branch of `dcMain` reports the particle-count diagnostic: that check
lives in `deposit_charge` itself. -/
theorem dcMain_error_ne_np_msg (gpu : Bool) (kernel : Kernel) (a : DepositArgs)
    (rho : RhoField) (ng : IntVect) (nox np lev dlev : Int) (ratio : IntVect) :
    ¬ (dcMain gpu kernel a rho ng nox np lev dlev ratio).error =
        some "np_to_deposit + offset are out-of-bounds for particle iterator" := by
  intro he
  simp only [dcMain] at he
  split_ifs at he
  all_goals
    first
      | exact Option.noConfusion he
      | exact absurd (Option.some.inj he) (by decide)

/-- C4: `deposit_charge` accepts a target deposition level equal to the
owning level or the owning level minus one and aborts fatally for any other
target; if the target differs from the owning level and no refinement ratio
was supplied it aborts fatally; when no target level is supplied the owning
level is used and an absent ratio defaults to 1 in every dimension. -/
theorem deposit_charge_level_contract (gpu : Bool) (kernel : Kernel)
    (a : DepositArgs) (rho : RhoField)
    (h1 : (a.num_rho_deposition_guards.getD a.rho_nGrow).allLE a.rho_nGrow)
    (h2 : a.np_to_deposit.getD a.numPartsInTile + a.offset ≤ a.numPartsInTile) :
    (¬ (a.depos_lev.getD a.lev = a.lev - 1 ∨ a.depos_lev.getD a.lev = a.lev) →
      deposit_charge gpu kernel a rho =
        mkAbort "Deposition buffers only work for lev or lev-1" rho
          (some (a.num_rho_deposition_guards.getD a.rho_nGrow))
          (some (a.np_to_deposit.getD a.numPartsInTile))
          (some (a.depos_lev.getD a.lev)))
    ∧ ((a.depos_lev.getD a.lev = a.lev - 1 ∨ a.depos_lev.getD a.lev = a.lev) →
      a.rel_ref_ratio = none → ¬ a.depos_lev.getD a.lev = a.lev →
      deposit_charge gpu kernel a rho =
        mkAbort "rel_ref_ratio must be set if lev != depos_lev" rho
          (some (a.num_rho_deposition_guards.getD a.rho_nGrow))
          (some (a.np_to_deposit.getD a.numPartsInTile))
          (some (a.depos_lev.getD a.lev)))
    ∧ (a.depos_lev = none → a.rel_ref_ratio = none →
      (deposit_charge gpu kernel a rho).deposLev = some a.lev ∧
      (deposit_charge gpu kernel a rho).ratio = some IntVect.one) := by
  refine ⟨fun h3 => ?_, fun h3 hr hne => ?_, fun hd hr => ?_⟩
  · simp only [deposit_charge]
    rw [if_pos h1, if_pos h2, if_neg h3]
  · simp only [deposit_charge]
    rw [if_pos h1, if_pos h2, if_pos h3,
        if_pos ⟨hr, fun hc => hne hc.symm⟩]
  · simp only [deposit_charge, hd, hr, Option.getD_none]
    rw [if_pos h1, if_pos h2, if_pos (Or.inr trivial),
        if_neg (by simp)]
    simp only [dcMain, dcDeposit]
    split_ifs <;> exact ⟨rfl, rfl⟩

/-- C4, witness: target level 3 on an owning level 1 aborts with the
level diagnostic. -/
theorem deposit_charge_level_contract_witness :
    ¬ (exArgsBadLev.depos_lev.getD exArgsBadLev.lev = exArgsBadLev.lev - 1 ∨
       exArgsBadLev.depos_lev.getD exArgsBadLev.lev = exArgsBadLev.lev) ∧
    deposit_charge false kOne exArgsBadLev rho0 =
      mkAbort "Deposition buffers only work for lev or lev-1" rho0
        (some ⟨2, 2, 2⟩) (some 3) (some 3) :=
  ⟨by decide,
   (deposit_charge_level_contract false kOne exArgsBadLev rho0
     (by decide) (by decide)).1 (by decide)⟩

/-- C5: when the target level is coarser than the owning level,
`deposit_charge` coarsens the tile box by the caller-supplied per-dimension
ratio before the guard growth and the lower-bound computation: the recorded
deposition tile box is the selected box (coarsened iff the levels differ,
uncoarsened otherwise) grown by the resolved guards, and the recorded `lo` is
that grown box's lower bound. -/
theorem deposit_charge_coarsens_before_index_math (gpu : Bool) (kernel : Kernel)
    (a : DepositArgs) (rho : RhoField)
    (h1 : (a.num_rho_deposition_guards.getD a.rho_nGrow).allLE a.rho_nGrow)
    (h2 : a.np_to_deposit.getD a.numPartsInTile + a.offset ≤ a.numPartsInTile)
    (h3 : a.depos_lev.getD a.lev = a.lev - 1 ∨ a.depos_lev.getD a.lev = a.lev)
    (h4 : ¬ (a.rel_ref_ratio = none ∧ ¬ a.lev = a.depos_lev.getD a.lev))
    (hnp : ¬ a.np_to_deposit.getD a.numPartsInTile = 0)
    (hin : numParticlesOutOfRange a.particles a.tileBox
      (dcRange gpu a.rho_nGrow (a.num_rho_deposition_guards.getD a.rho_nGrow)
        a.particle_shape) = 0) :
    (deposit_charge gpu kernel a rho).tilebox =
      some ((if a.lev = a.depos_lev.getD a.lev then a.tileBox
             else a.tileBox.coarsen (a.rel_ref_ratio.getD IntVect.one)).grow
              (a.num_rho_deposition_guards.getD a.rho_nGrow)) ∧
    (deposit_charge gpu kernel a rho).lo =
      some (((if a.lev = a.depos_lev.getD a.lev then a.tileBox
              else a.tileBox.coarsen (a.rel_ref_ratio.getD IntVect.one)).grow
               (a.num_rho_deposition_guards.getD a.rho_nGrow)).lo) := by
  rw [deposit_charge_eq_dcMain gpu kernel a rho h1 h2 h3 h4]
  simp only [dcMain]
  rw [if_neg hnp, if_pos hin]
  simp only [dcDeposit, dcTilebox]
  exact ⟨by trivial, by trivial⟩

/-- C5, witness: depositing from level 1 into level 0 with ratio 2 coarsens
the tile box [0,7]^3 to [0,3]^3, then grows it by the 2 guard cells to
[-2,5]^3, whose lower bound is (-2,-2,-2). -/
theorem deposit_charge_coarsens_before_index_math_witness :
    exArgsCoarse.depos_lev.getD exArgsCoarse.lev = exArgsCoarse.lev - 1 ∧
    (deposit_charge false kOne exArgsCoarse rho0).tilebox =
      some ⟨⟨-2, -2, -2⟩, ⟨5, 5, 5⟩⟩ ∧
    (deposit_charge false kOne exArgsCoarse rho0).lo = some ⟨-2, -2, -2⟩ :=
  ⟨by decide,
   (deposit_charge_coarsens_before_index_math false kOne exArgsCoarse rho0
     (by decide) (by decide) (by decide) (by decide) (by decide) (by decide)).1,
   (deposit_charge_coarsens_before_index_math false kOne exArgsCoarse rho0
     (by decide) (by decide) (by decide) (by decide) (by decide) (by decide)).2⟩

/-- C6: with the configuration checks passing, a resolved particle count of
zero is a valid no-op, not an error: the call returns before computing the
bounds-check range or dispatching any kernel, and the target field is
returned completely unchanged. -/
theorem deposit_charge_empty_noop (gpu : Bool) (kernel : Kernel)
    (a : DepositArgs) (rho : RhoField)
    (h1 : (a.num_rho_deposition_guards.getD a.rho_nGrow).allLE a.rho_nGrow)
    (h2 : a.np_to_deposit.getD a.numPartsInTile + a.offset ≤ a.numPartsInTile)
    (h3 : a.depos_lev.getD a.lev = a.lev - 1 ∨ a.depos_lev.getD a.lev = a.lev)
    (h4 : ¬ (a.rel_ref_ratio = none ∧ ¬ a.lev = a.depos_lev.getD a.lev))
    (h0 : a.np_to_deposit.getD a.numPartsInTile = 0) :
    (deposit_charge gpu kernel a rho).error = none ∧
    (deposit_charge gpu kernel a rho).call = none ∧
    (deposit_charge gpu kernel a rho).range = none ∧
    (deposit_charge gpu kernel a rho).rho = rho := by
  rw [deposit_charge_eq_dcMain gpu kernel a rho h1 h2 h3 h4]
  simp only [dcMain]
  rw [if_pos h0]
  exact ⟨rfl, rfl, rfl, rfl⟩

/-- C6, witness: an explicit count of zero returns success with no dispatch
and the zero field unchanged (under a kernel that would add 1 everywhere had
it been dispatched). -/
theorem deposit_charge_empty_noop_witness :
    exArgsEmpty.np_to_deposit.getD exArgsEmpty.numPartsInTile = 0 ∧
    (deposit_charge false kOne exArgsEmpty rho0).error = none ∧
    (deposit_charge false kOne exArgsEmpty rho0).call = none ∧
    (deposit_charge false kOne exArgsEmpty rho0).rho = rho0 :=
  ⟨by decide,
   (deposit_charge_empty_noop false kOne exArgsEmpty rho0
     (by decide) (by decide) (by decide) (by decide) (by decide)).1,
   (deposit_charge_empty_noop false kOne exArgsEmpty rho0
     (by decide) (by decide) (by decide) (by decide) (by decide)).2.1,
   (deposit_charge_empty_noop false kOne exArgsEmpty rho0
     (by decide) (by decide) (by decide) (by decide) (by decide)).2.2.2⟩

/-- C7: given a valid guard configuration, `deposit_charge` aborts with the
particle-count diagnostic exactly when the resolved count plus the starting
offset exceeds the iterator's particle count; an unsupplied count defaults to
the iterator's full count, which satisfies the bound at offset 0. -/
theorem deposit_charge_np_bound (gpu : Bool) (kernel : Kernel)
    (a : DepositArgs) (rho : RhoField)
    (h1 : (a.num_rho_deposition_guards.getD a.rho_nGrow).allLE a.rho_nGrow) :
    ((deposit_charge gpu kernel a rho).error =
        some "np_to_deposit + offset are out-of-bounds for particle iterator"
      ↔ ¬ (a.np_to_deposit.getD a.numPartsInTile + a.offset ≤ a.numPartsInTile))
    ∧ (a.np_to_deposit = none →
        a.np_to_deposit.getD a.numPartsInTile = a.numPartsInTile ∧
        a.numPartsInTile + 0 ≤ a.numPartsInTile) := by
  refine ⟨⟨fun he hb => ?_, fun hb => ?_⟩, fun hn => ⟨by simp [hn], by omega⟩⟩
  · simp only [deposit_charge] at he
    rw [if_pos h1, if_pos hb] at he
    split_ifs at he
    all_goals
      first
        | exact dcMain_error_ne_np_msg _ _ _ _ _ _ _ _ _ _ he
        | exact absurd (Option.some.inj he) (by decide)
  · simp only [deposit_charge]
    rw [if_pos h1, if_neg hb]
    rfl

/-- C7, witness: requesting 5 particles from a 3-particle batch aborts with
the particle-count diagnostic. -/
theorem deposit_charge_np_bound_witness :
    ¬ (exArgsBadNp.np_to_deposit.getD exArgsBadNp.numPartsInTile +
        exArgsBadNp.offset ≤ exArgsBadNp.numPartsInTile) ∧
    (deposit_charge false kOne exArgsBadNp rho0).error =
      some "np_to_deposit + offset are out-of-bounds for particle iterator" :=
  ⟨by decide,
   ((deposit_charge_np_bound false kOne exArgsBadNp rho0 (by decide)).1).mpr (by decide)⟩

/-- C8: for every shape order `n` in {1,2,3,4} and every fractional offset in
the kernel's domain, the shape-function library produces `n+1` non-negative
weights that sum to 1; and at an offset of 0 (a particle exactly on a grid
node) the sum of the non-zero weights is exactly 1. -/
theorem shapeWeights_normalized (r : ℚ) :
    ((0 ≤ r → r ≤ 1 →
        (shapeWeights 1 r).length = 1 + 1 ∧
        (∀ w ∈ shapeWeights 1 r, 0 ≤ w) ∧ (shapeWeights 1 r).sum = 1)
    ∧ (-(1/2) ≤ r → r ≤ 1/2 →
        (shapeWeights 2 r).length = 2 + 1 ∧
        (∀ w ∈ shapeWeights 2 r, 0 ≤ w) ∧ (shapeWeights 2 r).sum = 1)
    ∧ (0 ≤ r → r ≤ 1 →
        (shapeWeights 3 r).length = 3 + 1 ∧
        (∀ w ∈ shapeWeights 3 r, 0 ≤ w) ∧ (shapeWeights 3 r).sum = 1)
    ∧ (-(1/2) ≤ r → r ≤ 1/2 →
        (shapeWeights 4 r).length = 4 + 1 ∧
        (∀ w ∈ shapeWeights 4 r, 0 ≤ w) ∧ (shapeWeights 4 r).sum = 1)
    ∧ (∀ n, 1 ≤ n → n ≤ 4 →
        ((shapeWeights n 0).filter (fun w => decide (w ≠ 0))).sum = 1)) := by
  refine ⟨fun h0 h1 => ⟨rfl, ?_, ?_⟩, fun h0 h1 => ⟨rfl, ?_, ?_⟩,
          fun h0 h1 => ⟨rfl, ?_, ?_⟩, fun h0 h1 => ⟨rfl, ?_, ?_⟩,
          fun n hn1 hn4 => ?_⟩
  · intro w hw
    simp only [shapeWeights, List.mem_cons, List.not_mem_nil, or_false] at hw
    rcases hw with h | h <;> subst h <;> linarith
  · simp [shapeWeights]
  · intro w hw
    simp only [shapeWeights, List.mem_cons, List.not_mem_nil, or_false] at hw
    have hp : (0:ℚ) ≤ (1/2 - r) * (1/2 + r) :=
      mul_nonneg (by linarith) (by linarith)
    rcases hw with h | h | h <;> subst h <;>
      nlinarith [sq_nonneg (1/2 - r), sq_nonneg (1/2 + r)]
  · simp [shapeWeights]; ring
  · intro w hw
    simp only [shapeWeights, List.mem_cons, List.not_mem_nil, or_false] at hw
    have hc2 : (0:ℚ) ≤ r * (1 - r) := mul_nonneg h0 (by linarith)
    have hc : (0:ℚ) ≤ (1 - r) * (1 - r)^2 := mul_nonneg (by linarith) (sq_nonneg _)
    have hc3 : (0:ℚ) ≤ r^2 * (1 - r) := mul_nonneg (sq_nonneg _) (by linarith)
    have hc4 : (0:ℚ) ≤ r * r^2 := mul_nonneg h0 (sq_nonneg _)
    have hw1 : (0:ℚ) ≤ (1 - r) * (1 + r - r^2) :=
      mul_nonneg (by linarith) (by nlinarith [hc2])
    rcases hw with h | h | h | h <;> subst h <;> nlinarith
  · simp [shapeWeights]; ring
  · intro w hw
    simp only [shapeWeights, List.mem_cons, List.not_mem_nil, or_false] at hw
    have hu0 : (0:ℚ) ≤ 1/2 - r := by linarith
    have hv0 : (0:ℚ) ≤ 1/2 + r := by linarith
    have hcu : (0:ℚ) ≤ (1/2 - r)^2 * (1/2 - r) * (1 - (1/2 - r)) :=
      mul_nonneg (mul_nonneg (sq_nonneg _) hu0) (by linarith)
    have hcv : (0:ℚ) ≤ (1/2 + r)^2 * (1/2 + r) * (1 - (1/2 + r)) :=
      mul_nonneg (mul_nonneg (sq_nonneg _) hv0) (by linarith)
    have hp : (0:ℚ) ≤ (1/2 - r) * (1/2 + r) := mul_nonneg hu0 hv0
    rcases hw with h | h | h | h | h
    · subst h; positivity
    · subst h; nlinarith [hcu, hu0, sq_nonneg (1/2 - r)]
    · subst h; nlinarith [hp, sq_nonneg (r^2)]
    · subst h; nlinarith [hcv, hv0, sq_nonneg (1/2 + r)]
    · subst h; positivity
  · simp [shapeWeights]; ring
  · interval_cases n <;> norm_num [shapeWeights, List.filter_cons]

/-- C8, witness: at offset 1/4 the order-1 and order-4 kernels are normalized
and non-negative. -/
theorem shapeWeights_normalized_witness :
    (0 ≤ (1/4 : ℚ) ∧ (1/4 : ℚ) ≤ 1 ∧ -(1/2) ≤ (1/4 : ℚ) ∧ (1/4 : ℚ) ≤ 1/2) ∧
    (shapeWeights 1 (1/4)).sum = 1 ∧ (shapeWeights 4 (1/4)).sum = 1 :=
  ⟨by norm_num,
   ((shapeWeights_normalized (1/4)).1 (by norm_num) (by norm_num)).2.2,
   ((shapeWeights_normalized (1/4)).2.2.2.1 (by norm_num) (by norm_num)).2.2⟩

/-- C9: a guard-cell override exceeding the allocated guards of the rho field
in any dimension makes `deposit_charge` abort fatally before doing anything
else (the returned result records nothing but the rejected guards and the
untouched field); with no override, the rho field's own allocated guard width
is used. -/
theorem deposit_charge_guard_override (gpu : Bool) (kernel : Kernel)
    (a : DepositArgs) (rho : RhoField) :
    (∀ g, a.num_rho_deposition_guards = some g → ¬ g.allLE a.rho_nGrow →
      deposit_charge gpu kernel a rho =
        mkAbort "num_rho_deposition_guards are larger than allocated!" rho
          (some g) none none)
    ∧ (a.num_rho_deposition_guards = none →
      (deposit_charge gpu kernel a rho).ng = some a.rho_nGrow) := by
  constructor
  · intro g hg hle
    simp only [deposit_charge, hg, Option.getD_some]
    rw [if_neg hle]
  · intro hnone
    simp only [deposit_charge, hnone, Option.getD_none]
    rw [if_pos (by unfold IntVect.allLE; omega)]
    simp only [dcMain, dcDeposit]
    split_ifs <;> rfl

/-- C9, witness: the override (3,3,3) against allocated guards (2,2,2)
aborts with the guard diagnostic, recording the rejected override. -/
theorem deposit_charge_guard_override_witness :
    exArgsBadGuard.num_rho_deposition_guards = some ⟨3, 3, 3⟩ ∧
    deposit_charge false kOne exArgsBadGuard rho0 =
      mkAbort "num_rho_deposition_guards are larger than allocated!" rho0
        (some ⟨3, 3, 3⟩) none none :=
  ⟨rfl,
   (deposit_charge_guard_override false kOne exArgsBadGuard rho0).1
     ⟨3, 3, 3⟩ rfl (by decide)⟩

/-- C10: a shape order outside {1,2,3,4} that passes every precondition check
raises no error and dispatches no kernel — the if-else chain has no final
branch — and the call returns with the target field numerically unchanged in
every component and cell (on the CPU path the still-zeroed scratch buffer is
merged in, adding zero everywhere). -/
theorem deposit_charge_invalid_shape_silent (gpu : Bool) (kernel : Kernel)
    (a : DepositArgs) (rho : RhoField)
    (h1 : (a.num_rho_deposition_guards.getD a.rho_nGrow).allLE a.rho_nGrow)
    (h2 : a.np_to_deposit.getD a.numPartsInTile + a.offset ≤ a.numPartsInTile)
    (h3 : a.depos_lev.getD a.lev = a.lev - 1 ∨ a.depos_lev.getD a.lev = a.lev)
    (h4 : ¬ (a.rel_ref_ratio = none ∧ ¬ a.lev = a.depos_lev.getD a.lev))
    (hnp : ¬ a.np_to_deposit.getD a.numPartsInTile = 0)
    (hin : numParticlesOutOfRange a.particles a.tileBox
      (dcRange gpu a.rho_nGrow (a.num_rho_deposition_guards.getD a.rho_nGrow)
        a.particle_shape) = 0)
    (hs1 : ¬ a.particle_shape = 1) (hs2 : ¬ a.particle_shape = 2)
    (hs3 : ¬ a.particle_shape = 3) (hs4 : ¬ a.particle_shape = 4) :
    (deposit_charge gpu kernel a rho).error = none ∧
    (deposit_charge gpu kernel a rho).call = none ∧
    ∀ comp cell, (deposit_charge gpu kernel a rho).rho comp cell = rho comp cell := by
  rw [deposit_charge_eq_dcMain gpu kernel a rho h1 h2 h3 h4]
  simp only [dcMain]
  rw [if_neg hnp, if_pos hin]
  simp only [dcDeposit, dcDispatch]
  rw [if_neg hs1, if_neg hs2, if_neg hs3, if_neg hs4]
  refine ⟨by trivial, by trivial, fun comp cell => ?_⟩
  simp only [DepResult.rho, dcScatter, dcContrib]
  cases gpu <;> simp

/-- C10, witness: shape order 5 with a kernel that would add 1 everywhere
returns success, dispatches nothing, and leaves the probed cell at its input
value. -/
theorem deposit_charge_invalid_shape_silent_witness :
    exArgsShape5.particle_shape = 5 ∧
    (deposit_charge false kOne exArgsShape5 rho0).error = none ∧
    (deposit_charge false kOne exArgsShape5 rho0).call = none ∧
    (deposit_charge false kOne exArgsShape5 rho0).rho 0 ⟨0, 0, 0⟩ = rho0 0 ⟨0, 0, 0⟩ :=
  ⟨rfl,
   (deposit_charge_invalid_shape_silent false kOne exArgsShape5 rho0
     (by decide) (by decide) (by decide) (by decide) (by decide) (by decide)
     (by decide) (by decide) (by decide) (by decide)).1,
   (deposit_charge_invalid_shape_silent false kOne exArgsShape5 rho0
     (by decide) (by decide) (by decide) (by decide) (by decide) (by decide)
     (by decide) (by decide) (by decide) (by decide)).2.1,
   (deposit_charge_invalid_shape_silent false kOne exArgsShape5 rho0
     (by decide) (by decide) (by decide) (by decide) (by decide) (by decide)
     (by decide) (by decide) (by decide) (by decide)).2.2 0 ⟨0, 0, 0⟩⟩
